import Mathlib

/-!
Shallow embedding of the rappel long-running-operation task queue
(`src/longrunning/redis.rs`, `src/longrunning/mod.rs`) over a Redis-style
store.  Lists and hashes are modelled explicitly; time stamps and UUIDs,
which the Rust code samples effectfully, are passed as explicit parameters.
The codec (`crate::codec`, not present in the sources) is modelled
abstractly by its behavioural contract from the spec, as are the
`Performable::type_name` string and `std::any::type_name`.
-/

namespace Rappel

/-- Modelled from the spec (§4.5): `Context` lives in the missing
`longrunning/types.rs`; it is an immutable carrier of `{system_id, user_id}`,
both strings, accessor-only after construction. -/
structure Context where
  system_id : String
  user_id : String
deriving DecidableEq

/-- The external store: Redis lists (head first, as returned by
`LRANGE key 0 -1`) and Redis hashes (field/value pairs). -/
structure Store where
  lists : String → List String
  hashes : String → List (String × String)

/-- Key of the ready list, `format!("queue:{}", name)`. -/
def readyKey (name : String) : String := "queue:" ++ name

/-- Key of the in-flight list, `format!("queue:ack:{}", name)`. -/
def ackKey (name : String) : String := "queue:ack:" ++ name

/-- Key of the operation record, `format!("operation:{}", id)`. -/
def opKey (id : String) : String := "operation:" ++ id

/-- `HSET`: overwrite a field of a hash (insert when absent). -/
def hsetField (h : List (String × String)) (f v : String) :
    List (String × String) :=
  h.filter (fun p => p.1 != f) ++ [(f, v)]

/-- `HSET key field1 v1 field2 v2 ...` (`hset_multiple`): left-to-right
sequence of single-field writes. -/
def hsetMulti (h : List (String × String)) (fs : List (String × String)) :
    List (String × String) :=
  fs.foldl (fun acc p => hsetField acc p.1 p.2) h

/-- Replace one list of the store. -/
def setList (st : Store) (key : String) (l : List String) : Store :=
  { st with lists := fun k => if k = key then l else st.lists k }

/-- Replace one hash of the store. -/
def setHash (st : Store) (key : String) (h : List (String × String)) : Store :=
  { st with hashes := fun k => if k = key then h else st.hashes k }

/-- `HSET` on the store. -/
def storeHSet (st : Store) (key f v : String) : Store :=
  setHash st key (hsetField (st.hashes key) f v)

/-- `hset_multiple` on the store. -/
def storeHSetMulti (st : Store) (key : String)
    (fs : List (String × String)) : Store :=
  setHash st key (hsetMulti (st.hashes key) fs)

/-- Remove the first occurrence of `v` from a list. -/
def lremFirst : List String → String → List String
  | [], _ => []
  | x :: xs, v => if x = v then xs else x :: lremFirst xs v

/-- `LREM key -1 v`: remove one occurrence of `v` scanning from the tail. -/
def lremLast (l : List String) (v : String) : List String :=
  (lremFirst l.reverse v).reverse

/-- `LMOVE src dst RIGHT LEFT`: pop the tail of `src` and push it onto the
head of `dst`; `none` when `src` is empty. -/
def lmove (st : Store) (src dst : String) : Option String × Store :=
  match (st.lists src).getLast? with
  | none => (none, st)
  | some v =>
    let st1 := setList st src (st.lists src).dropLast
    let st2 := setList st1 dst (v :: st1.lists dst)
    (some v, st2)

/-- `RedisQueueError` from `src/longrunning/redis.rs`.  The `Redis`,
`CodecError` and `Unknown` payloads are modelled as strings. -/
inductive RedisQueueError where
  | redis (msg : String)
  | codecError (msg : String)
  | invalidTaskType (expected found : String)
  | internal (msg : String)
  | notFound (msg : String)
deriving DecidableEq

/-- `RedisMessage` from `src/longrunning/redis.rs`. -/
structure RedisMessage (T : Type) where
  ack_id : String
  data : T
deriving DecidableEq

/-- Outcome of one `pull` call.  `indexPanic f` models the Rust panic from
the unchecked `HashMap` indexing `op[f]` on a missing field. -/
inductive PullResult (T : Type) where
  | empty
  | received (m : RedisMessage T)
  | err (e : RedisQueueError)
  | indexPanic (field : String)
deriving DecidableEq

/-- Modelled from the spec (§4.1, §4.3.2) and the call sites in
`redis.rs`: the consumer-side data a `pull` depends on.  `typeName` is
`Performable::type_name()` (the declared stable schema name, from the
missing `longrunning/types.rs`); `rustTypeName` is
`std::any::type_name::<T>()` (the compiler's full type path — nothing ties
the two strings together); `decode` is the codec's decoder: `Ok none`
means incomplete/malformed input, `Err` a fatal codec error. -/
structure PullEnv (T : Type) where
  typeName : String
  rustTypeName : String
  decode : String → Except String (Option T)

/-- `RedisQueue::pull` (redis.rs lines 225–278): `LMOVE` one id from the
tail of `queue:{name}` to the head of `queue:ack:{name}`; on `none` return
empty.  Then `hset` the three `dequeue_*` fields and `hgetall` the record;
index `op["task_type"]` (panic when missing) and compare with
`type_name()`, erring with `InvalidTaskType(std::any::type_name, found)`
on mismatch; index `op["task"]` (panic when missing), decode, and map
`Ok none` to `Internal("Failed to decode task")`. -/
def pull {T : Type} (env : PullEnv T) (name : String) (ctx : Context)
    (now : Int) (st : Store) : PullResult T × Store :=
  match lmove st (readyKey name) (ackKey name) with
  | (none, st1) => (.empty, st1)
  | (some opId, st1) =>
    let st2 := storeHSetMulti st1 (opKey opId)
      [("dequeue_system_id", ctx.system_id),
       ("dequeue_ts", toString now),
       ("dequeue_user_id", ctx.user_id)]
    let op := st2.hashes (opKey opId)
    match op.lookup "task_type" with
    | none => (.indexPanic "task_type", st2)
    | some tt =>
      if tt ≠ env.typeName then
        (.err (.invalidTaskType env.rustTypeName tt), st2)
      else
        match op.lookup "task" with
        | none => (.indexPanic "task", st2)
        | some task =>
          match env.decode task with
          | .error e => (.err (.codecError e), st2)
          | .ok none => (.err (.internal "Failed to decode task"), st2)
          | .ok (some t) => (.received ⟨opId, t⟩, st2)

/-- `RedisQueue::ack` (redis.rs lines 280–318): `HGET operation:{id} queue`;
if absent fail `NotFound`.  Otherwise `hset` the three `ack_*` fields and
run `LREM` — the source passes the queue name both as the list key
(`format!("queue:{}", queue)`) and as the value to remove. -/
def ack (ackId : String) (ctx : Context) (now : Int) (st : Store) :
    Except RedisQueueError Unit × Store :=
  match (st.hashes (opKey ackId)).lookup "queue" with
  | none =>
    (.error (.notFound ("Missing operation queue info for ack_id = " ++ ackId)), st)
  | some queue =>
    let st1 := storeHSetMulti st (opKey ackId)
      [("ack_system_id", ctx.system_id),
       ("ack_ts", toString now),
       ("ack_user_id", ctx.user_id)]
    let st2 := setList st1 ("queue:" ++ queue)
      (lremLast (st1.lists ("queue:" ++ queue)) queue)
    (.ok (), st2)

/-- Modelled from the spec (§4.1) and the call site in `offer`: the
producer-side codec data.  `encode item` returns the encoder's
`Result` together with the byte buffer content after the call, already
passed through `String::from_utf8_lossy` (on failure the buffer may hold
partial output). -/
structure OfferEnv (T : Type) where
  typeName : String
  encode : T → Except String Unit × String

/-- `RedisQueue::offer` (redis.rs lines 190–223): encode the item — the
source discards the encoder's result with `let _ =` — then atomically
`LPUSH id` onto `queue:{name}` and `hset_multiple` the seven record fields,
returning `Ok(id)`. -/
def offer {T : Type} (env : OfferEnv T) (name : String) (item : T)
    (id : String) (publishTs : Int) (ctx : Context) (st : Store) :
    Except RedisQueueError String × Store :=
  let encRes := env.encode item
  let task := encRes.2
  let st1 := setList st (readyKey name) (id :: st.lists (readyKey name))
  let st2 := storeHSetMulti st1 (opKey id)
    [("status", "New"),
     ("operation_id", id),
     ("queue", name),
     ("publish_ts", toString publishTs),
     ("task", task),
     ("user_id", ctx.user_id),
     ("task_type", env.typeName)]
  (.ok id, st2)

/-- `google.rpc.Status`, the error envelope stored by `complete`. -/
structure Status where
  code : Int
  message : String
deriving DecidableEq

/-- `RedisQueue::complete` (redis.rs lines 133–177): one atomic pipeline
setting `done="true"`, `status="Terminated"`, `end_ts=now()`, then `error`
(protobuf-encoded `Status` from the `Err` payload) or `result`
(protobuf-encoded success message).  The protobuf encoders are abstract
parameters (`prost::Message::encode_to_vec`); byte vectors are modelled
as strings. -/
def complete {M E : Type} (encodeMsg : M → String) (toStatus : E → Status)
    (encodeStatus : Status → String) (id : String) (r : Except E M)
    (now : Int) (st : Store) : Store :=
  let st1 := storeHSetMulti st (opKey id)
    [("done", "true"),
     ("status", "Terminated"),
     ("end_ts", toString now)]
  match r with
  | .error e => storeHSet st1 (opKey id) "error" (encodeStatus (toStatus e))
  | .ok m => storeHSet st1 (opKey id) "result" (encodeMsg m)

/-- `google.protobuf.Timestamp`. -/
structure Timestamp where
  seconds : Int
  nanos : Int
deriving DecidableEq

/-- `Operation` wire form (proto `longrunning.Operation`), as populated by
`FromRedisValue` and the broker. -/
structure Operation where
  operation_id : String
  metadata : List (String × String)
  done : Bool
  error : Option Status
  response : List (String × String)
  creation_ts : Option Timestamp
  start_ts : Option Timestamp
  end_ts : Option Timestamp
deriving DecidableEq

/-- Rust `str::parse::<i64>`: optional sign, one or more ASCII digits,
in-range for `i64`; `none` otherwise. -/
def parseI64 (s : String) : Option Int :=
  let withSign : Bool × List Char :=
    match s.toList with
    | '-' :: r => (true, r)
    | '+' :: r => (false, r)
    | r => (false, r)
  let ds := withSign.2
  if ds ≠ [] ∧ ds.all Char.isDigit then
    let n : Nat := ds.foldl (fun acc c => acc * 10 + (c.toNat - 48)) 0
    let v : Int := if withSign.1 then -(n : Int) else (n : Int)
    if -(2 ^ 63) ≤ v ∧ v ≤ 2 ^ 63 - 1 then some v else none
  else none

/-- One timestamp field of the record:
`map.remove(f).map(|v| v.parse::<i64>().expect(..) → {seconds, nanos})`.
Outer `none` models the `expect` panic on an unparseable value; Rust's
`/` and `%` on `i64` are `Int.tdiv` / `Int.tmod` (truncation toward zero). -/
def tsField (m : List (String × String)) (f : String) :
    Option (Option Timestamp) :=
  match m.lookup f with
  | none => some none
  | some v =>
    match parseI64 v with
    | none => none
    | some ts => some (some ⟨Int.tdiv ts 1000000000, Int.tmod ts 1000000000⟩)

/-- `impl FromRedisValue for Operation` (redis.rs lines 321–377):
projection of the stored hash into the wire form.  Missing strings default
to `""`; `done` is `true` iff the field holds exactly `"true"`; the three
timestamp fields come from `publish_ts`, `dequeue_ts`, `end_ts`.  `none`
models the `expect` panic on an unparseable timestamp. -/
def from_redis_value (m : List (String × String)) : Option Operation := do
  let creation ← tsField m "publish_ts"
  let start ← tsField m "dequeue_ts"
  let endTs ← tsField m "end_ts"
  some
    { operation_id := (m.lookup "operation_id").getD ""
      metadata :=
        [("task_type", (m.lookup "task_type").getD ""),
         ("task", (m.lookup "task").getD ""),
         ("user_id", (m.lookup "user_id").getD ""),
         ("queue", (m.lookup "queue").getD ""),
         ("status", (m.lookup "status").getD "")]
      done := match m.lookup "done" with
        | some v => v == "true"
        | none => false
      error := none
      response := []
      creation_ts := creation
      start_ts := start
      end_ts := endTs }

/-- `wait` (mod.rs lines 17–38), run against the trace of responses the
RPC client produces for the successive `Get` calls: return the first error
verbatim; return the first operation with `done`; otherwise sleep and poll
again.  `none` means the trace was exhausted without the loop returning. -/
def wait {ε : Type} : List (Except ε Operation) → Option (Except ε Operation)
  | [] => none
  | .error e :: _ => some (.error e)
  | .ok op :: rest => if op.done then some (.ok op) else wait rest

/-! Concrete fixtures used to evaluate the model (spec §8 scenarios). -/

/-- The context of spec §8 scenario 1: `{user_id="1234", system_id="s1"}`. -/
def ctxW : Context := ⟨"s1", "1234"⟩

/-- A store with every list and hash empty. -/
def stEmpty : Store := ⟨fun _ => [], fun _ => []⟩

/-- Consumer of `demo::Task` payloads; the decoder echoes the raw string.
`rustTypeName` is the compiler path of the type, which carries the crate
name as its first segment and so differs from the declared stable name. -/
def taskEnv : PullEnv String :=
  ⟨"demo::Task", "rappel::demo::Task", fun s => .ok (some s)⟩

/-- Consumer declaring `demo::Other` (spec §8 scenario 2). -/
def otherEnv : PullEnv String :=
  ⟨"demo::Other", "rappel::demo::Other", fun s => .ok (some s)⟩

/-- Consumer of `demo::Task` whose decoder yields `Ok(None)`
(incomplete/malformed payload). -/
def noneDecodeEnv : PullEnv Unit :=
  ⟨"demo::Task", "rappel::demo::Task", fun _ => .ok none⟩

/-- Store holding one offered `demo::Task` record ready to pull on `q-A`. -/
def mismatchStore : Store :=
  ⟨fun k => if k = readyKey "q-A" then ["id0"] else [],
   fun k => if k = opKey "id0" then
      [("queue", "q-A"), ("task_type", "demo::Task"), ("task", "\x7b\x7d")]
    else []⟩

/-- Store in which `op1` has been pulled on queue `q1` (it sits in
`queue:ack:q1`), and the ready list happens to contain the literal string
`"q1"` among its elements. -/
def ackBugStore : Store :=
  ⟨fun k => if k = readyKey "q1" then ["a", "q1"]
    else if k = ackKey "q1" then ["op1"] else [],
   fun k => if k = opKey "op1" then [("queue", "q1")] else []⟩

/-- Producer environment whose encoder always fails, leaving an empty
byte buffer. -/
def failOffer : OfferEnv Unit :=
  ⟨"demo::Task", fun _ => (.error "serialization failed", "")⟩

/-- Producer environment whose encoder succeeds, writing the payload
string itself. -/
def okOffer : OfferEnv String := ⟨"demo::Task", fun s => (.ok (), s)⟩

/-- Store whose ready list holds an id with no record behind it. -/
def ghostStore : Store :=
  ⟨fun k => if k = readyKey "q" then ["ghost"] else [], fun _ => []⟩

/-- Store holding a well-formed pullable record (both `task_type` and
`task` present). -/
def goodPullStore : Store :=
  ⟨fun k => if k = readyKey "q" then ["id0"] else [],
   fun k => if k = opKey "id0" then
      [("queue", "q"), ("task_type", "demo::Task"), ("task", "payload")]
    else []⟩

/-- A not-yet-terminal wire operation. -/
def opNo : Operation := ⟨"a", [], false, none, [], none, none, none⟩

/-- A terminal wire operation. -/
def opYes : Operation := ⟨"b", [], true, none, [], none, none, none⟩

/-! Helper lemmas about the store primitives. -/

theorem lookup_hsetField (h : List (String × String)) (f v g : String) :
    (hsetField h f v).lookup g = if g = f then some v else h.lookup g := by
  induction h with
  | nil =>
    by_cases hg : g = f
    · simp [hsetField, List.lookup, hg]
    · simp [hsetField, List.lookup, beq_eq_false_iff_ne.mpr hg, hg]
  | cons p t ih =>
    obtain ⟨k, w⟩ := p
    by_cases hk : k = f
    · subst hk
      have hdrop : hsetField ((k, w) :: t) k v = hsetField t k v := by
        simp [hsetField, List.filter_cons]
      by_cases hg : g = k
      · rw [hdrop, ih, if_pos hg, if_pos hg]
      · have hlk : ((k, w) :: t).lookup g = t.lookup g := by
          simp [List.lookup, beq_eq_false_iff_ne.mpr hg]
        rw [hdrop, ih, if_neg hg, if_neg hg, hlk]
    · have hkeep : hsetField ((k, w) :: t) f v = (k, w) :: hsetField t f v := by
        simp [hsetField, List.filter_cons, bne_iff_ne.mpr hk]
      by_cases hg : g = k
      · have hgf : g ≠ f := by rw [hg]; exact hk
        rw [hkeep, if_neg hgf]
        simp [List.lookup, hg]
      · have hskip : ∀ rest : List (String × String),
            ((k, w) :: rest).lookup g = rest.lookup g := by
          intro rest
          simp [List.lookup, beq_eq_false_iff_ne.mpr hg]
        rw [hkeep, hskip (hsetField t f v), ih, hskip t]

theorem lookup_hsetMulti_notin (fs : List (String × String))
    (h : List (String × String)) (g : String)
    (hg : ∀ p ∈ fs, p.1 ≠ g) :
    (hsetMulti h fs).lookup g = h.lookup g := by
  induction fs generalizing h with
  | nil => rfl
  | cons p t ih =>
    have hpg : p.1 ≠ g := hg p (by simp)
    have step : hsetMulti h (p :: t) = hsetMulti (hsetField h p.1 p.2) t := rfl
    rw [step, ih (hsetField h p.1 p.2) (fun q hq => hg q (by simp [hq])),
      lookup_hsetField, if_neg (fun he => hpg he.symm)]

theorem ackKey_ne_readyKey (name : String) : ackKey name ≠ readyKey name := by
  intro h
  have hlen := congrArg String.length h
  simp [ackKey, readyKey, String.length_append] at hlen
  exact absurd hlen (by decide)

/-! Claim theorems. -/

/-- C1 (code_bug): a successful `ack` is claimed to remove one occurrence
of `ack_id` from `queue:ack:{name}` and leave `queue:{name}` untouched.
The source instead runs `lrem(format!("queue:{}", queue), -1, queue)` —
the READY list keyed by the record's queue name, removing the queue-name
string itself.  At this concrete input the call reports success, yet
`op1` is still in `queue:ack:q1` and the ready list lost an element. -/
theorem ack_does_not_remove_from_inflight :
    (ack "op1" ctxW 11 ackBugStore).1 = .ok () ∧
    (ack "op1" ctxW 11 ackBugStore).2.lists (ackKey "q1") = ["op1"] ∧
    (ack "op1" ctxW 11 ackBugStore).2.lists (readyKey "q1") = ["a"] :=
  ⟨rfl, rfl, rfl⟩

/-- C7 (code_bug): `offer` is claimed to surface encoder failures as a
codec `QueueError`.  The source discards the encoder's result
(`let _ = encoder.encode(&item, &mut task)`): with an encoder that fails
and leaves an empty buffer, `offer` still returns `Ok(id)` and stores the
empty string as the `task` field. -/
theorem offer_swallows_encoder_failure :
    (failOffer.encode ()).1 = .error "serialization failed" ∧
    (offer failOffer "q-A" () "id1" 7 ctxW stEmpty).1 = .ok "id1" ∧
    ((offer failOffer "q-A" () "id1" 7 ctxW stEmpty).2.hashes
        (opKey "id1")).lookup "task" = some "" :=
  ⟨rfl, rfl, rfl⟩

/-- Reduction of `pull` once the hand-off has moved the tail id `i`:
spelled-out store after `LMOVE` plus the dequeue-metadata `hset`. -/
theorem pull_eq_some {T : Type} (env : PullEnv T) (name : String)
    (ctx : Context) (now : Int) (st : Store) (i : String)
    (hlast : (st.lists (readyKey name)).getLast? = some i) :
    pull env name ctx now st =
      (let stM := setList
          (setList st (readyKey name) ((st.lists (readyKey name)).dropLast))
          (ackKey name)
          (i :: (setList st (readyKey name)
              ((st.lists (readyKey name)).dropLast)).lists (ackKey name))
       let st2 := storeHSetMulti stM (opKey i)
          [("dequeue_system_id", ctx.system_id),
           ("dequeue_ts", toString now),
           ("dequeue_user_id", ctx.user_id)]
       let op := st2.hashes (opKey i)
       match op.lookup "task_type" with
       | none => (.indexPanic "task_type", st2)
       | some tt =>
         if tt ≠ env.typeName then
           (.err (.invalidTaskType env.rustTypeName tt), st2)
         else
           match op.lookup "task" with
           | none => (.indexPanic "task", st2)
           | some task =>
             match env.decode task with
             | .error e => (.err (.codecError e), st2)
             | .ok none => (.err (.internal "Failed to decode task"), st2)
             | .ok (some t) => (.received ⟨i, t⟩, st2)) := by
  unfold pull lmove
  rw [hlast]

/-- The dequeue-metadata `hset` of `pull` touches only the three
`dequeue_*` fields of the record. -/
theorem lookup_after_dequeue (st : Store) (i : String) (ctx : Context)
    (now : Int) (g : String) (h1 : g ≠ "dequeue_system_id")
    (h2 : g ≠ "dequeue_ts") (h3 : g ≠ "dequeue_user_id") :
    ((storeHSetMulti st (opKey i)
        [("dequeue_system_id", ctx.system_id),
         ("dequeue_ts", toString now),
         ("dequeue_user_id", ctx.user_id)]).hashes (opKey i)).lookup g
      = (st.hashes (opKey i)).lookup g := by
  have hfs : ∀ p ∈ [("dequeue_system_id", ctx.system_id),
      ("dequeue_ts", toString now), ("dequeue_user_id", ctx.user_id)],
      (p : String × String).1 ≠ g := by
    intro p hp
    simp only [List.mem_cons, List.not_mem_nil, or_false] at hp
    rcases hp with rfl | rfl | rfl
    · exact fun he => h1 he.symm
    · exact fun he => h2 he.symm
    · exact fun he => h3 he.symm
  simp only [storeHSetMulti, setHash, if_pos rfl]
  exact lookup_hsetMulti_notin _ _ _ hfs

/-- C2: when `pull` moves an id whose record carries a `task_type`
different from the declared type name, it returns an error and no
`Message`; the id sits at the head of `queue:ack:{name}` afterwards, and
the lists are exactly those left by the hand-off `LMOVE` — the error path
performs no further list mutation. -/
theorem pull_mismatch_keeps_id_inflight {T : Type} (env : PullEnv T)
    (name : String) (ctx : Context) (now : Int) (st : Store) (i tt : String)
    (hlast : (st.lists (readyKey name)).getLast? = some i)
    (htt : (st.hashes (opKey i)).lookup "task_type" = some tt)
    (hne : tt ≠ env.typeName) :
    (∃ e, (pull env name ctx now st).1 = .err e) ∧
    (∀ m, (pull env name ctx now st).1 ≠ .received m) ∧
    (pull env name ctx now st).2.lists (ackKey name)
        = i :: st.lists (ackKey name) ∧
    (pull env name ctx now st).2.lists
        = ((lmove st (readyKey name) (ackKey name)).2).lists := by
  have hrec : ((storeHSetMulti
      (setList (setList st (readyKey name) ((st.lists (readyKey name)).dropLast))
        (ackKey name)
        (i :: (setList st (readyKey name)
            ((st.lists (readyKey name)).dropLast)).lists (ackKey name)))
      (opKey i)
      [("dequeue_system_id", ctx.system_id),
       ("dequeue_ts", toString now),
       ("dequeue_user_id", ctx.user_id)]).hashes (opKey i)).lookup "task_type"
      = some tt := by
    rw [lookup_after_dequeue _ _ _ _ _ (by decide) (by decide) (by decide)]
    exact htt
  rw [pull_eq_some env name ctx now st i hlast]
  simp only [hrec, if_pos hne]
  refine ⟨⟨_, rfl⟩, ?_, ?_, ?_⟩
  · intro m h
    cases h
  · simp [storeHSetMulti, setHash, setList, ackKey_ne_readyKey name]
  · unfold lmove
    rw [hlast]
    rfl

/-- C3 (amended): on a `task_type` mismatch the returned error is
`InvalidTaskType(expected, found)` where `expected` is
`std::any::type_name::<T>()` — the compiler type path, not the declared
`T::type_name()` — and `found` is the stored `task_type`. -/
theorem pull_mismatch_error_contents {T : Type} (env : PullEnv T)
    (name : String) (ctx : Context) (now : Int) (st : Store) (i tt : String)
    (hlast : (st.lists (readyKey name)).getLast? = some i)
    (htt : (st.hashes (opKey i)).lookup "task_type" = some tt)
    (hne : tt ≠ env.typeName) :
    (pull env name ctx now st).1
      = .err (.invalidTaskType env.rustTypeName tt) := by
  have hrec : ((storeHSetMulti
      (setList (setList st (readyKey name) ((st.lists (readyKey name)).dropLast))
        (ackKey name)
        (i :: (setList st (readyKey name)
            ((st.lists (readyKey name)).dropLast)).lists (ackKey name)))
      (opKey i)
      [("dequeue_system_id", ctx.system_id),
       ("dequeue_ts", toString now),
       ("dequeue_user_id", ctx.user_id)]).hashes (opKey i)).lookup "task_type"
      = some tt := by
    rw [lookup_after_dequeue _ _ _ _ _ (by decide) (by decide) (by decide)]
    exact htt
  rw [pull_eq_some env name ctx now st i hlast]
  simp only [hrec, if_pos hne]

/-- C3 (counterexample): at a concrete mismatch — consumer declaring
`demo::Other` with compiler path `rappel::demo::Other`, record of type
`demo::Task` — the error is `InvalidTaskType("rappel::demo::Other",
"demo::Task")`, not `InvalidTaskType("demo::Other", "demo::Task")` as the
claim states. -/
theorem pull_mismatch_error_cex :
    (pull otherEnv "q-A" ctxW 9 mismatchStore).1
        = .err (.invalidTaskType "rappel::demo::Other" "demo::Task") ∧
    (pull otherEnv "q-A" ctxW 9 mismatchStore).1
        ≠ .err (.invalidTaskType "demo::Other" "demo::Task") :=
  ⟨by decide, by decide⟩

/-- C8: when the type check passes but the decoder yields absent on the
stored task bytes, `pull` fails with `Internal("Failed to decode task")`
and the id stays in `queue:ack:{name}`. -/
theorem pull_decode_absent_internal {T : Type} (env : PullEnv T)
    (name : String) (ctx : Context) (now : Int) (st : Store) (i s : String)
    (hlast : (st.lists (readyKey name)).getLast? = some i)
    (htt : (st.hashes (opKey i)).lookup "task_type" = some env.typeName)
    (htask : (st.hashes (opKey i)).lookup "task" = some s)
    (hdec : env.decode s = .ok none) :
    (pull env name ctx now st).1 = .err (.internal "Failed to decode task") ∧
    (pull env name ctx now st).2.lists (ackKey name)
        = i :: st.lists (ackKey name) := by
  have hrec : ((storeHSetMulti
      (setList (setList st (readyKey name) ((st.lists (readyKey name)).dropLast))
        (ackKey name)
        (i :: (setList st (readyKey name)
            ((st.lists (readyKey name)).dropLast)).lists (ackKey name)))
      (opKey i)
      [("dequeue_system_id", ctx.system_id),
       ("dequeue_ts", toString now),
       ("dequeue_user_id", ctx.user_id)]).hashes (opKey i)).lookup "task_type"
      = some env.typeName := by
    rw [lookup_after_dequeue _ _ _ _ _ (by decide) (by decide) (by decide)]
    exact htt
  have hrec2 : ((storeHSetMulti
      (setList (setList st (readyKey name) ((st.lists (readyKey name)).dropLast))
        (ackKey name)
        (i :: (setList st (readyKey name)
            ((st.lists (readyKey name)).dropLast)).lists (ackKey name)))
      (opKey i)
      [("dequeue_system_id", ctx.system_id),
       ("dequeue_ts", toString now),
       ("dequeue_user_id", ctx.user_id)]).hashes (opKey i)).lookup "task"
      = some s := by
    rw [lookup_after_dequeue _ _ _ _ _ (by decide) (by decide) (by decide)]
    exact htask
  refine ⟨?_, ?_⟩
  · rw [pull_eq_some env name ctx now st i hlast]
    simp only [hrec, hrec2, hdec, if_neg (not_not_intro rfl)]
  · rw [pull_eq_some env name ctx now st i hlast]
    simp only [hrec, hrec2, hdec, if_neg (not_not_intro rfl)]
    simp [storeHSetMulti, setHash, setList, ackKey_ne_readyKey name]

/-- C10: on the reachable input of an id in the ready list whose hash
lacks `task_type` (never written or purged), `pull` hits the unchecked
`HashMap` indexing panic rather than returning a `QueueError`; and on any
record holding both `task_type` and `task` no panic is possible. -/
theorem pull_panics_on_missing_record_fields :
    (pull taskEnv "q" ctxW 0 ghostStore).1 = .indexPanic "task_type" ∧
    (∀ (T : Type) (env : PullEnv T) (name : String) (ctx : Context)
        (now : Int) (st : Store) (i : String),
      (st.lists (readyKey name)).getLast? = some i →
      ((st.hashes (opKey i)).lookup "task_type").isSome →
      ((st.hashes (opKey i)).lookup "task").isSome →
      ∀ f, (pull env name ctx now st).1 ≠ .indexPanic f) := by
  constructor
  · rfl
  · intro T env name ctx now st i hlast h1 h2 f
    obtain ⟨tt, htt⟩ := Option.isSome_iff_exists.mp h1
    obtain ⟨s, htask⟩ := Option.isSome_iff_exists.mp h2
    have hrec : ((storeHSetMulti
        (setList (setList st (readyKey name) ((st.lists (readyKey name)).dropLast))
          (ackKey name)
          (i :: (setList st (readyKey name)
              ((st.lists (readyKey name)).dropLast)).lists (ackKey name)))
        (opKey i)
        [("dequeue_system_id", ctx.system_id),
         ("dequeue_ts", toString now),
         ("dequeue_user_id", ctx.user_id)]).hashes (opKey i)).lookup "task_type"
        = some tt := by
      rw [lookup_after_dequeue _ _ _ _ _ (by decide) (by decide) (by decide)]
      exact htt
    have hrec2 : ((storeHSetMulti
        (setList (setList st (readyKey name) ((st.lists (readyKey name)).dropLast))
          (ackKey name)
          (i :: (setList st (readyKey name)
              ((st.lists (readyKey name)).dropLast)).lists (ackKey name)))
        (opKey i)
        [("dequeue_system_id", ctx.system_id),
         ("dequeue_ts", toString now),
         ("dequeue_user_id", ctx.user_id)]).hashes (opKey i)).lookup "task"
        = some s := by
      rw [lookup_after_dequeue _ _ _ _ _ (by decide) (by decide) (by decide)]
      exact htask
    rw [pull_eq_some env name ctx now st i hlast]
    simp only [hrec, hrec2]
    by_cases he : tt = env.typeName
    · rw [if_neg (not_not_intro he)]
      cases hdc : env.decode s with
      | error e => exact fun h => PullResult.noConfusion h
      | ok o =>
        cases o with
        | none => exact fun h => PullResult.noConfusion h
        | some t => exact fun h => PullResult.noConfusion h
    · rw [if_pos he]
      exact fun h => PullResult.noConfusion h

/-- C6: an `offer` that encodes successfully returns `Ok(id)`, left-pushes
`id` once onto `queue:{name}`, and writes `operation:{id}` with exactly
the fields `status="New"`, `operation_id`, `queue`, `publish_ts`,
`task` (the encoded payload string), `user_id` and `task_type`. -/
theorem offer_pushes_and_records {T : Type} (env : OfferEnv T)
    (name : String) (item : T) (id : String) (publishTs : Int)
    (ctx : Context) (st : Store) (s : String)
    (henc : env.encode item = (.ok (), s))
    (hfresh : st.hashes (opKey id) = []) :
    (offer env name item id publishTs ctx st).1 = .ok id ∧
    (offer env name item id publishTs ctx st).2.lists (readyKey name)
        = id :: st.lists (readyKey name) ∧
    (offer env name item id publishTs ctx st).2.hashes (opKey id)
        = [("status", "New"), ("operation_id", id), ("queue", name),
           ("publish_ts", toString publishTs), ("task", s),
           ("user_id", ctx.user_id), ("task_type", env.typeName)] := by
  refine ⟨rfl, ?_, ?_⟩
  · simp [offer, storeHSetMulti, setHash, setList]
  · simp [offer, storeHSetMulti, setHash, setList, henc, hfresh]
    rfl

/-- C4: `complete(id, outcome)` sets `done="true"`,
`status="Terminated"` and `end_ts` on `operation:{id}`; on `Ok(m)` it sets
`result` to the encoding of `m` and leaves `error` unwritten; on `Err(e)`
it sets `error` to the encoding of the derived `Status` and leaves
`result` unwritten. -/
theorem complete_sets_terminal_fields {M E : Type} (encodeMsg : M → String)
    (toStatus : E → Status) (encodeStatus : Status → String) (id : String)
    (r : Except E M) (now : Int) (st : Store) :
    (((complete encodeMsg toStatus encodeStatus id r now st).hashes
        (opKey id)).lookup "done" = some "true") ∧
    (((complete encodeMsg toStatus encodeStatus id r now st).hashes
        (opKey id)).lookup "status" = some "Terminated") ∧
    (((complete encodeMsg toStatus encodeStatus id r now st).hashes
        (opKey id)).lookup "end_ts" = some (toString now)) ∧
    (∀ m, r = .ok m →
      ((complete encodeMsg toStatus encodeStatus id r now st).hashes
          (opKey id)).lookup "result" = some (encodeMsg m) ∧
      ((complete encodeMsg toStatus encodeStatus id r now st).hashes
          (opKey id)).lookup "error" = (st.hashes (opKey id)).lookup "error") ∧
    (∀ e, r = .error e →
      ((complete encodeMsg toStatus encodeStatus id r now st).hashes
          (opKey id)).lookup "error" = some (encodeStatus (toStatus e)) ∧
      ((complete encodeMsg toStatus encodeStatus id r now st).hashes
          (opKey id)).lookup "result" = (st.hashes (opKey id)).lookup "result") := by
  cases r with
  | ok m =>
    refine ⟨?_, ?_, ?_, ?_, ?_⟩ <;>
      simp [complete, storeHSet, storeHSetMulti, setHash, hsetMulti,
        lookup_hsetField]
  | error e =>
    refine ⟨?_, ?_, ?_, ?_, ?_⟩ <;>
      simp [complete, storeHSet, storeHSetMulti, setHash, hsetMulti,
        lookup_hsetField]

/-- C5: whenever the poll loop returns, an `Ok` result is the first
operation observed from `Get` with `done`, returned unchanged and preceded
only by not-done responses; an `Err` result is the first `Get` error,
returned verbatim, again preceded only by not-done responses — so an RPC
error terminates the wait immediately. -/
theorem wait_returns_first_done {ε : Type} (tr : List (Except ε Operation))
    (r : Except ε Operation) (h : wait tr = some r) :
    (∀ op, r = .ok op → op.done = true ∧
      ∃ pre rest, tr = pre ++ .ok op :: rest ∧
        ∀ x ∈ pre, ∃ o, x = .ok o ∧ o.done = false) ∧
    (∀ e, r = .error e →
      ∃ pre rest, tr = pre ++ .error e :: rest ∧
        ∀ x ∈ pre, ∃ o, x = .ok o ∧ o.done = false) := by
  induction tr with
  | nil => simp [wait] at h
  | cons x t ih =>
    cases x with
    | error e =>
      have hr : r = Except.error e := by
        have hx := h
        simp [wait] at hx
        exact hx.symm
      subst hr
      constructor
      · intro op hop
        exact Except.noConfusion hop
      · intro e' he'
        injection he' with h1
        subst h1
        exact ⟨[], t, rfl, by simp⟩
    | ok op =>
      by_cases hd : op.done
      · have hr : r = Except.ok op := by
          have hx := h
          simp [wait, hd] at hx
          exact hx.symm
        subst hr
        constructor
        · intro op' hop'
          injection hop' with h1
          subst h1
          exact ⟨hd, [], t, rfl, by simp⟩
        · intro e' he'
          exact Except.noConfusion he'
      · have hw : wait (Except.ok op :: t) = wait t := by
          simp [wait, hd]
        rw [hw] at h
        obtain ⟨ih1, ih2⟩ := ih h
        constructor
        · intro op' hop'
          obtain ⟨hdone, pre, rest, htr, hpre⟩ := ih1 op' hop'
          refine ⟨hdone, .ok op :: pre, rest, by rw [htr, List.cons_append], ?_⟩
          intro x hx
          rcases List.mem_cons.mp hx with rfl | hx
          · exact ⟨op, rfl, by simpa using hd⟩
          · exact hpre x hx
        · intro e' he'
          obtain ⟨pre, rest, htr, hpre⟩ := ih2 e' he'
          refine ⟨.ok op :: pre, rest, by rw [htr, List.cons_append], ?_⟩
          intro x hx
          rcases List.mem_cons.mp hx with rfl | hx
          · exact ⟨op, rfl, by simpa using hd⟩
          · exact hpre x hx

/-- A timestamp field whose present values parse never panics. -/
theorem tsField_isSome (m : List (String × String)) (f : String)
    (h : ∀ v, m.lookup f = some v → (parseI64 v).isSome) :
    (tsField m f).isSome := by
  cases hv : m.lookup f with
  | none => simp [tsField, hv]
  | some v =>
    have hps := h v hv
    cases hp : parseI64 v with
    | none => rw [hp] at hps; simp at hps
    | some ts => simp [tsField, hv, hp]

/-- Closed form of the projection when no timestamp field panics. -/
theorem from_redis_value_eq (m : List (String × String))
    (c s e : Option Timestamp)
    (hc : tsField m "publish_ts" = some c)
    (hs : tsField m "dequeue_ts" = some s)
    (he : tsField m "end_ts" = some e) :
    from_redis_value m = some
      { operation_id := (m.lookup "operation_id").getD ""
        metadata := [("task_type", (m.lookup "task_type").getD ""),
          ("task", (m.lookup "task").getD ""),
          ("user_id", (m.lookup "user_id").getD ""),
          ("queue", (m.lookup "queue").getD ""),
          ("status", (m.lookup "status").getD "")]
        done := match m.lookup "done" with
          | some v => v == "true"
          | none => false
        error := none
        response := []
        creation_ts := c
        start_ts := s
        end_ts := e } := by
  simp [from_redis_value, hc, hs, he]

/-- C9: on any stored hash whose present timestamp fields are decimal
integers (the layout the writers produce) the projection to the wire
`Operation` succeeds — the empty hash included: missing `done` decodes to
`false`, missing strings to `""`, and each present timestamp `ts` splits
into `seconds = ts div 10^9` and `nanos = ts mod 10^9`. -/
theorem from_redis_value_total_on_partial (m : List (String × String))
    (h1 : ∀ v, m.lookup "publish_ts" = some v → (parseI64 v).isSome)
    (h2 : ∀ v, m.lookup "dequeue_ts" = some v → (parseI64 v).isSome)
    (h3 : ∀ v, m.lookup "end_ts" = some v → (parseI64 v).isSome) :
    ∃ op, from_redis_value m = some op ∧
      op.operation_id = (m.lookup "operation_id").getD "" ∧
      op.metadata = [("task_type", (m.lookup "task_type").getD ""),
        ("task", (m.lookup "task").getD ""),
        ("user_id", (m.lookup "user_id").getD ""),
        ("queue", (m.lookup "queue").getD ""),
        ("status", (m.lookup "status").getD "")] ∧
      (m.lookup "done" = none → op.done = false) ∧
      (op.done = true ↔ m.lookup "done" = some "true") ∧
      (m.lookup "publish_ts" = none → op.creation_ts = none) ∧
      (∀ v ts, m.lookup "publish_ts" = some v → parseI64 v = some ts →
        op.creation_ts
          = some ⟨Int.tdiv ts 1000000000, Int.tmod ts 1000000000⟩) ∧
      (m.lookup "dequeue_ts" = none → op.start_ts = none) ∧
      (∀ v ts, m.lookup "dequeue_ts" = some v → parseI64 v = some ts →
        op.start_ts
          = some ⟨Int.tdiv ts 1000000000, Int.tmod ts 1000000000⟩) ∧
      (m.lookup "end_ts" = none → op.end_ts = none) ∧
      (∀ v ts, m.lookup "end_ts" = some v → parseI64 v = some ts →
        op.end_ts
          = some ⟨Int.tdiv ts 1000000000, Int.tmod ts 1000000000⟩) := by
  obtain ⟨c, hc⟩ := Option.isSome_iff_exists.mp (tsField_isSome m "publish_ts" h1)
  obtain ⟨s0, hs⟩ := Option.isSome_iff_exists.mp (tsField_isSome m "dequeue_ts" h2)
  obtain ⟨e0, he⟩ := Option.isSome_iff_exists.mp (tsField_isSome m "end_ts" h3)
  refine ⟨_, from_redis_value_eq m c s0 e0 hc hs he, rfl, rfl, ?_, ?_, ?_, ?_,
    ?_, ?_, ?_, ?_⟩
  · intro hd
    simp [hd]
  · cases hd : m.lookup "done" with
    | none => simp [hd]
    | some v => simp [hd]
  · intro hnone
    have hn : tsField m "publish_ts" = some none := by simp [tsField, hnone]
    have : c = none := Option.some.inj (hc.symm.trans hn)
    simpa using this
  · intro v ts hv hts
    have hn : tsField m "publish_ts"
        = some (some ⟨Int.tdiv ts 1000000000, Int.tmod ts 1000000000⟩) := by
      simp [tsField, hv, hts]
    have : c = some ⟨Int.tdiv ts 1000000000, Int.tmod ts 1000000000⟩ :=
      Option.some.inj (hc.symm.trans hn)
    simpa using this
  · intro hnone
    have hn : tsField m "dequeue_ts" = some none := by simp [tsField, hnone]
    have : s0 = none := Option.some.inj (hs.symm.trans hn)
    simpa using this
  · intro v ts hv hts
    have hn : tsField m "dequeue_ts"
        = some (some ⟨Int.tdiv ts 1000000000, Int.tmod ts 1000000000⟩) := by
      simp [tsField, hv, hts]
    have : s0 = some ⟨Int.tdiv ts 1000000000, Int.tmod ts 1000000000⟩ :=
      Option.some.inj (hs.symm.trans hn)
    simpa using this
  · intro hnone
    have hn : tsField m "end_ts" = some none := by simp [tsField, hnone]
    have : e0 = none := Option.some.inj (he.symm.trans hn)
    simpa using this
  · intro v ts hv hts
    have hn : tsField m "end_ts"
        = some (some ⟨Int.tdiv ts 1000000000, Int.tmod ts 1000000000⟩) := by
      simp [tsField, hv, hts]
    have : e0 = some ⟨Int.tdiv ts 1000000000, Int.tmod ts 1000000000⟩ :=
      Option.some.inj (he.symm.trans hn)
    simpa using this

/-- Concrete instance of the C2 theorem (spec §8 scenario 2). -/
theorem pull_mismatch_keeps_id_inflight_witness :
    (∃ e, (pull otherEnv "q-A" ctxW 9 mismatchStore).1 = .err e) ∧
    (∀ m, (pull otherEnv "q-A" ctxW 9 mismatchStore).1 ≠ .received m) ∧
    (pull otherEnv "q-A" ctxW 9 mismatchStore).2.lists (ackKey "q-A")
        = "id0" :: mismatchStore.lists (ackKey "q-A") ∧
    (pull otherEnv "q-A" ctxW 9 mismatchStore).2.lists
        = ((lmove mismatchStore (readyKey "q-A") (ackKey "q-A")).2).lists :=
  pull_mismatch_keeps_id_inflight otherEnv "q-A" ctxW 9 mismatchStore "id0"
    "demo::Task" (by decide) (by decide) (by decide)

/-- Concrete instance of the amended C3 theorem. -/
theorem pull_mismatch_error_contents_witness :
    (pull otherEnv "q-A" ctxW 9 mismatchStore).1
      = .err (.invalidTaskType "rappel::demo::Other" "demo::Task") :=
  pull_mismatch_error_contents otherEnv "q-A" ctxW 9 mismatchStore "id0"
    "demo::Task" (by decide) (by decide) (by decide)

/-- Concrete instance of the C4 theorem. -/
theorem complete_sets_terminal_fields_witness :
    ((complete (fun _ : Unit => "RES") (fun _ : Unit => ⟨5, "not found"⟩)
        (fun st => toString st.code) "id0" (.ok ()) 42 stEmpty).hashes
      (opKey "id0")).lookup "done" = some "true" ∧
    ((complete (fun _ : Unit => "RES") (fun _ : Unit => ⟨5, "not found"⟩)
        (fun st => toString st.code) "id0" (.ok ()) 42 stEmpty).hashes
      (opKey "id0")).lookup "result" = some "RES" ∧
    ((complete (fun _ : Unit => "RES") (fun _ : Unit => ⟨5, "not found"⟩)
        (fun st => toString st.code) "id0" (.error ()) 42 stEmpty).hashes
      (opKey "id0")).lookup "error" = some "5" := by
  have hok := complete_sets_terminal_fields (fun _ : Unit => "RES")
    (fun _ : Unit => (⟨5, "not found"⟩ : Status)) (fun st => toString st.code)
    "id0" (.ok ()) 42 stEmpty
  have herr := complete_sets_terminal_fields (fun _ : Unit => "RES")
    (fun _ : Unit => (⟨5, "not found"⟩ : Status)) (fun st => toString st.code)
    "id0" (.error ()) 42 stEmpty
  exact ⟨hok.1, (hok.2.2.2.1 () rfl).1, (herr.2.2.2.2 () rfl).1⟩

/-- Concrete instance of the C5 theorem. -/
theorem wait_returns_first_done_witness :
    opYes.done = true ∧
    ∃ pre rest, [Except.ok (ε := String) opNo, Except.ok opYes]
        = pre ++ .ok opYes :: rest ∧
      ∀ x ∈ pre, ∃ o, x = .ok o ∧ o.done = false :=
  (wait_returns_first_done [Except.ok (ε := String) opNo, Except.ok opYes]
    (.ok opYes) rfl).1 opYes rfl

/-- Concrete instance of the C6 theorem (spec §8 scenario 1). -/
theorem offer_pushes_and_records_witness :
    (offer okOffer "q-A" "payload" "id0" 5 ctxW stEmpty).1 = .ok "id0" ∧
    (offer okOffer "q-A" "payload" "id0" 5 ctxW stEmpty).2.lists
        (readyKey "q-A") = "id0" :: stEmpty.lists (readyKey "q-A") ∧
    (offer okOffer "q-A" "payload" "id0" 5 ctxW stEmpty).2.hashes
        (opKey "id0")
      = [("status", "New"), ("operation_id", "id0"), ("queue", "q-A"),
         ("publish_ts", toString (5 : Int)), ("task", "payload"),
         ("user_id", ctxW.user_id), ("task_type", okOffer.typeName)] :=
  offer_pushes_and_records okOffer "q-A" "payload" "id0" 5 ctxW stEmpty
    "payload" rfl rfl

/-- Concrete instance of the C8 theorem. -/
theorem pull_decode_absent_internal_witness :
    (pull noneDecodeEnv "q" ctxW 3 goodPullStore).1
        = .err (.internal "Failed to decode task") ∧
    (pull noneDecodeEnv "q" ctxW 3 goodPullStore).2.lists (ackKey "q")
        = "id0" :: goodPullStore.lists (ackKey "q") :=
  pull_decode_absent_internal noneDecodeEnv "q" ctxW 3 goodPullStore "id0"
    "payload" (by decide) (by decide) (by decide) rfl

/-- The C9 theorem at the empty hash of a missing id. -/
theorem from_redis_value_total_on_partial_witness :
    ∃ op, from_redis_value [] = some op ∧
      op.operation_id = (List.lookup "operation_id" ([] : List (String × String))).getD "" ∧
      op.metadata = [("task_type", (List.lookup "task_type" ([] : List (String × String))).getD ""),
        ("task", (List.lookup "task" ([] : List (String × String))).getD ""),
        ("user_id", (List.lookup "user_id" ([] : List (String × String))).getD ""),
        ("queue", (List.lookup "queue" ([] : List (String × String))).getD ""),
        ("status", (List.lookup "status" ([] : List (String × String))).getD "")] ∧
      (List.lookup "done" ([] : List (String × String)) = none → op.done = false) ∧
      (op.done = true ↔ List.lookup "done" ([] : List (String × String)) = some "true") ∧
      (List.lookup "publish_ts" ([] : List (String × String)) = none → op.creation_ts = none) ∧
      (∀ v ts, List.lookup "publish_ts" ([] : List (String × String)) = some v → parseI64 v = some ts →
        op.creation_ts
          = some ⟨Int.tdiv ts 1000000000, Int.tmod ts 1000000000⟩) ∧
      (List.lookup "dequeue_ts" ([] : List (String × String)) = none → op.start_ts = none) ∧
      (∀ v ts, List.lookup "dequeue_ts" ([] : List (String × String)) = some v → parseI64 v = some ts →
        op.start_ts
          = some ⟨Int.tdiv ts 1000000000, Int.tmod ts 1000000000⟩) ∧
      (List.lookup "end_ts" ([] : List (String × String)) = none → op.end_ts = none) ∧
      (∀ v ts, List.lookup "end_ts" ([] : List (String × String)) = some v → parseI64 v = some ts →
        op.end_ts
          = some ⟨Int.tdiv ts 1000000000, Int.tmod ts 1000000000⟩) :=
  from_redis_value_total_on_partial []
    (fun _ hv => Option.noConfusion hv)
    (fun _ hv => Option.noConfusion hv)
    (fun _ hv => Option.noConfusion hv)

/-- The no-panic half of the C10 theorem at a well-formed record. -/
theorem pull_panics_on_missing_record_fields_witness :
    (pull taskEnv "q" ctxW 0 goodPullStore).1 ≠ .indexPanic "task_type" :=
  pull_panics_on_missing_record_fields.2 String taskEnv "q" ctxW 0
    goodPullStore "id0" (by decide) (by decide) (by decide) "task_type"

end Rappel
